import Mathlib

/-!
Shallow embedding of the PPE detection app (src/app.py).

The app uploads a video or image, calls an opaque YOLO detector which writes
annotated media under the output root runs/detect, then locates the newest
output subdirectory, picks media files by extension, and renders a verdict.

We model the filesystem state of the output root after the detector call as
a list of subdirectories, each carrying a modification time and its files
in directory-listing order, i.e. the arbitrary, unsorted order in which
glob.glob enumerates them.  The value returned by model.predict is modelled
as a list of per-frame results, each with optional boxes, an optional class
tensor, and a class-index-to-name mapping.  Everything after the predict
call in process_video and process_image is translated line by line.
-/

set_option linter.unusedVariables false

namespace PPEApp

/-- One subdirectory of the output root runs/detect.  `files` holds the
names of the files inside it in directory-listing order. -/
structure Subdir where
  name : String
  mtime : Nat
  files : List String
  deriving Repr, DecidableEq

/-- The state of the output root runs/detect: its subdirectories, in the
order in which glob.glob enumerates runs/detect/* . -/
abbrev OutputRoot := List Subdir

/-- Python string less-or-equal on character lists: lexicographic by code
point.  This is the comparison list.sort of Python uses on file names. -/
def charListLe : List Char → List Char → Bool
  | [], _ => true
  | _ :: _, [] => false
  | a :: as, b :: bs =>
    if a < b then true
    else if b < a then false
    else charListLe as bs

/-- The filename order used by list.sort in app.py line 34. -/
def strle (a b : String) : Prop := charListLe a.data b.data = true

instance : DecidableRel strle := fun a b =>
  inferInstanceAs (Decidable (charListLe a.data b.data = true))

/-- glob.glob of a pattern *.ext inside a directory: the files matching the
pattern, kept in listing order.  The star of the pattern does not match a
leading dot. -/
def globExt (files : List String) (ext : String) : List String :=
  files.filter fun n =>
    !(List.isPrefixOf ['.'] n.data) && List.isSuffixOf ("." ++ ext).data n.data

/-- max output_folders with key os.path.getmtime (app.py lines 22 and 56):
the first subdirectory of maximal modification time, none when the root has
no subdirectories (lines 20-21 and 54-55 return early in that case). -/
def maxByMtime : OutputRoot → Option Subdir
  | [] => none
  | d :: ds => some (ds.foldl (fun cur x => if x.mtime > cur.mtime then x else cur) d)

/-- app.py lines 24-26: video_files is the glob of *.mp4 in the latest
folder, falling back to *.avi when no mp4 is there. -/
def video_files (d : Subdir) : List String :=
  let v := globExt d.files "mp4"
  if v.isEmpty then globExt d.files "avi" else v

/-- app.py lines 31-33 and 58-60 (the same code occurs in both functions):
the glob of *.jpg in the latest folder, falling back to *.png when no jpg
is there. -/
def image_files (d : Subdir) : List String :=
  let i := globExt d.files "jpg"
  if i.isEmpty then globExt d.files "png" else i

/-- The dictionary process_video returns (app.py line 37), with keys video
and images. -/
structure VideoResult where
  video : String
  images : List String
  deriving Repr, DecidableEq

/-- The cls tensor of results.boxes: one class index per detected box,
possibly absent (app.py line 69 checks boxes.cls is not None). -/
structure Boxes where
  cls : Option (List Nat)

/-- One element of the list model.predict returns: its boxes, possibly
absent (line 67 checks results is nonempty and results.boxes is not None),
and its names mapping from class index to class name (line 71). -/
structure YoloResult where
  boxes : Option Boxes
  names : Nat → String

/-- app.py lines 8-37, everything after the opaque model.predict call and
the sleep: root is the state of runs/detect at that point and results the
value predict returned.  process_video never reads results. -/
def process_video (root : OutputRoot) (results : List YoloResult) : Option VideoResult :=
  match maxByMtime root with
  | none => none
  | some latest_folder =>
    match video_files latest_folder with
    | [] => none
    | processed_video :: _ =>
      let sample_images := (List.insertionSort strle (image_files latest_folder)).take 3
      some { video := processed_video, images := sample_images }

/-- The detection_info dictionary of app.py line 66: an insertion-ordered
association list from category key to detected flag, as a Python dict of
booleans. -/
abbrev DetInfo := List (String × Bool)

/-- Python assignment d[k] = v on a dict whose keys are unique and already
contain k (app.py lines 73 and 75): replaces the value stored at k, keeping
insertion order. -/
def dictSet (d : DetInfo) (k : String) (v : Bool) : DetInfo :=
  d.map fun p => if p.1 == k then (k, v) else p

/-- Python lookup d[k]: some value when the key is present, none standing
for the KeyError the lookup raises when it is absent. -/
def dictGet (d : DetInfo) (k : String) : Option Bool :=
  (d.find? fun p => p.1 == k).map Prod.snd

/-- app.py lines 66-75: build detection_info from the predict results.
Starts from mask and helmet both false; inspects only the head of the
result list (results and boxes and cls present), maps its class indices
through names, and sets each flag whose label occurs among the detected
class names. -/
def buildDetectionInfo (results : List YoloResult) : DetInfo :=
  let detection_info : DetInfo := [("mask", false), ("helmet", false)]
  match results with
  | [] => detection_info
  | r0 :: _ =>
    match r0.boxes with
    | none => detection_info
    | some boxes =>
      match boxes.cls with
      | none => detection_info
      | some clsList =>
        let detected_classes := clsList.map r0.names
        let detection_info :=
          if detected_classes.contains "mask" then dictSet detection_info "mask" true
          else detection_info
        let detection_info :=
          if detected_classes.contains "helmet" then dictSet detection_info "helmet" true
          else detection_info
        detection_info

/-- app.py lines 42-77, everything after the opaque model.predict call and
the sleep.  Python returns the pair None, None on failure and otherwise the
pair of the processed image path and the detection_info dict. -/
def process_image (root : OutputRoot) (results : List YoloResult) :
    Option String × Option DetInfo :=
  match maxByMtime root with
  | none => (none, none)
  | some latest_folder =>
    match image_files latest_folder with
    | [] => (none, none)
    | processed_image_path :: _ =>
      (some processed_image_path, some (buildDetectionInfo results))

/-- The outcome of the verdict block of the image page, app.py lines
161-171: either an uncaught KeyError raised by a dict lookup, the error
banner listing the missing categories, or the success banner. -/
inductive ImageVerdict where
  | keyError (key : String)
  | warning (msg : String)
  | success
  deriving Repr, DecidableEq

/-- app.py lines 161-171: the verdict the image page renders from
detection_info once processing succeeded.  Looks up the key mask, then the
key Hardhat, appending each to missing when its flag is false; a lookup of
an absent key raises KeyError.  A nonempty missing list yields the warning
banner, an empty one the success banner. -/
def renderImageVerdict (detection_info : DetInfo) : ImageVerdict :=
  let missing : List String := []
  match dictGet detection_info "mask" with
  | none => ImageVerdict.keyError "mask"
  | some mask_val =>
    let missing := if !mask_val then missing ++ ["mask"] else missing
    match dictGet detection_info "Hardhat" with
    | none => ImageVerdict.keyError "Hardhat"
    | some hardhat_val =>
      let missing := if !hardhat_val then missing ++ ["Hardhat"] else missing
      if !missing.isEmpty then
        ImageVerdict.warning ("Warning: No " ++ String.intercalate " and " missing ++ " detected!")
      else ImageVerdict.success

/-- An element the video page can render, app.py lines 108-135, together
with the verdict elements only the image page can emit. -/
inductive PageElement where
  | successMsg
  | downloadButton (path : String)
  | sampleImage (path : String)
  | warningNoImages
  | recommendations
  | errorMsg
  | verdict (v : ImageVerdict)
  deriving Repr, DecidableEq

/-- Whether a page element is a PPE category verdict. -/
def PageElement.isVerdict : PageElement → Bool
  | PageElement.verdict _ => true
  | _ => false

/-- app.py lines 108-135: what the video page renders once processed_data
is set: the success banner, the download button, the sample images or the
no-processed-images warning, and the recommendations block; or the error
banner when process_video returned None. -/
def renderVideoPage (processed_data : Option VideoResult) : List PageElement :=
  match processed_data with
  | some r =>
    [PageElement.successMsg, PageElement.downloadButton r.video] ++
    (if r.images.isEmpty then [PageElement.warningNoImages]
     else r.images.map PageElement.sampleImage) ++
    [PageElement.recommendations]
  | none => [PageElement.errorMsg]

/-- Running the video output locator on the filesystem: the locator only
reads the output root (glob and getmtime), so the state comes back
unchanged next to the result. -/
def runLocateVideo (root : OutputRoot) (results : List YoloResult) :
    OutputRoot × Option VideoResult :=
  (root, process_video root results)

/-- Running the image output locator on the filesystem: it only reads the
output root, so the state comes back unchanged next to the result. -/
def runLocateImage (root : OutputRoot) (results : List YoloResult) :
    OutputRoot × (Option String × Option DetInfo) :=
  (root, process_image root results)

/-- The not-found condition of the output locator for a preferred extension
and its fallback: the output root has no subdirectory at all, or the most
recently modified one holds no file of either recognized extension. -/
def noRecognizedOutput (root : OutputRoot) (e1 e2 : String) : Prop :=
  root = [] ∨ ∀ d, maxByMtime root = some d →
    globExt d.files e1 = [] ∧ globExt d.files e2 = []

/-! ## Helper lemmas -/

/-- The Python string order is total. -/
theorem charListLe_total (as : List Char) :
    ∀ bs, charListLe as bs = true ∨ charListLe bs as = true := by
  induction as with
  | nil =>
    intro bs
    exact Or.inl rfl
  | cons a as ih =>
    intro bs
    cases bs with
    | nil => exact Or.inr rfl
    | cons b bs2 =>
      rcases lt_trichotomy a b with h | h | h
      · left
        simp [charListLe, h]
      · subst h
        rcases ih bs2 with h2 | h2
        · left
          simp [charListLe, lt_self_iff_false, h2]
        · right
          simp [charListLe, lt_self_iff_false, h2]
      · right
        simp [charListLe, h]

/-- The Python string order is transitive. -/
theorem charListLe_trans (as : List Char) :
    ∀ bs cs, charListLe as bs = true → charListLe bs cs = true →
      charListLe as cs = true := by
  induction as with
  | nil =>
    intro bs cs h1 h2
    rfl
  | cons a as ih =>
    intro bs cs h1 h2
    cases bs with
    | nil => simp [charListLe] at h1
    | cons b bs2 =>
      cases cs with
      | nil => simp [charListLe] at h2
      | cons c cs2 =>
        rcases lt_trichotomy a b with hab | hab | hab
        · rcases lt_trichotomy b c with hbc | hbc | hbc
          · simp [charListLe, lt_trans hab hbc]
          · subst hbc
            simp [charListLe, hab]
          · simp [charListLe, lt_asymm hbc, hbc] at h2
        · subst hab
          simp only [charListLe, lt_self_iff_false, if_false] at h1
          rcases lt_trichotomy a c with hac | hac | hac
          · simp [charListLe, hac]
          · subst hac
            simp only [charListLe, lt_self_iff_false, if_false] at h2 ⊢
            exact ih bs2 cs2 h1 h2
          · simp [charListLe, lt_asymm hac, hac] at h2
        · simp [charListLe, lt_asymm hab, hab] at h1

/-- strle is total. -/
theorem strle_total (a b : String) : strle a b ∨ strle b a :=
  charListLe_total a.data b.data

/-- strle is transitive. -/
theorem strle_trans (a b c : String) : strle a b → strle b c → strle a c :=
  fun h1 h2 => charListLe_trans a.data b.data c.data h1 h2

/-- Insertion sort by strle sorts. -/
theorem sorted_insertionSort_strle (l : List String) :
    List.Sorted strle (List.insertionSort strle l) :=
  @List.sorted_insertionSort String strle _ ⟨strle_total⟩ ⟨fun _ _ _ => strle_trans _ _ _⟩ l

/-- Insertion sort preserves length. -/
theorem length_insertionSort_strle (l : List String) :
    (List.insertionSort strle l).length = l.length :=
  (List.perm_insertionSort strle l).length_eq

/-- maxByMtime returns none exactly on the empty root. -/
theorem maxByMtime_eq_none_iff (root : OutputRoot) :
    maxByMtime root = none ↔ root = [] := by
  cases root <;> simp [maxByMtime]

/-- detection_info always has the shape mask-flag then helmet-flag. -/
theorem buildDetectionInfo_shape (results : List YoloResult) :
    buildDetectionInfo results = [("mask", false), ("helmet", false)] ∨
    buildDetectionInfo results = [("mask", true), ("helmet", false)] ∨
    buildDetectionInfo results = [("mask", false), ("helmet", true)] ∨
    buildDetectionInfo results = [("mask", true), ("helmet", true)] := by
  rcases results with _ | ⟨r0, rest⟩
  · exact Or.inl rfl
  · cases hb : r0.boxes with
    | none =>
      left
      simp [buildDetectionInfo, hb]
    | some boxes =>
      cases hc : boxes.cls with
      | none =>
        left
        simp [buildDetectionInfo, hb, hc]
      | some clsList =>
        simp only [buildDetectionInfo, hb, hc]
        cases hm : (List.map r0.names clsList).contains "mask" <;>
          cases hh : (List.map r0.names clsList).contains "helmet" <;>
            decide

/-- The keys of detection_info are always mask then helmet. -/
theorem buildDetectionInfo_keys (results : List YoloResult) :
    (buildDetectionInfo results).map Prod.fst = ["mask", "helmet"] := by
  rcases buildDetectionInfo_shape results with h | h | h | h <;> rw [h] <;> rfl

/-- Inversion of a successful process_video run: the result is built from
the most recently modified subdirectory, its video is the head of the
video_files listing there, and its images are the first three sorted
jpg/png files there. -/
theorem process_video_eq_some (root : OutputRoot) (results : List YoloResult)
    (r : VideoResult) (h : process_video root results = some r) :
    ∃ d, maxByMtime root = some d ∧
      (video_files d).head? = some r.video ∧
      r.images = (List.insertionSort strle (image_files d)).take 3 := by
  unfold process_video at h
  split at h
  · exact Option.noConfusion h
  · rename_i d hm
    split at h
    · exact Option.noConfusion h
    · rename_i v vs hv
      injection h with h2
      subst h2
      exact ⟨d, hm, by rw [hv]; rfl, rfl⟩

/-- Inversion of a successful process_image run: the processed image path
is the head of the image_files listing of the most recently modified
subdirectory, and the detection info is built from the predict results. -/
theorem process_image_eq_some (root : OutputRoot) (results : List YoloResult)
    (p : String) (di : Option DetInfo)
    (h : process_image root results = (some p, di)) :
    ∃ d, maxByMtime root = some d ∧ (image_files d).head? = some p ∧
      di = some (buildDetectionInfo results) := by
  unfold process_image at h
  split at h
  · exact absurd h (by simp)
  · rename_i d hm
    split at h
    · exact absurd h (by simp)
    · rename_i f fs hi
      injection h with h1 h2
      injection h1 with h1
      subst h1
      subst h2
      exact ⟨d, hm, by rw [hi]; rfl, rfl⟩

/-- video_files is empty exactly when both globs are. -/
theorem video_files_eq_nil_iff (d : Subdir) :
    video_files d = [] ↔
      globExt d.files "mp4" = [] ∧ globExt d.files "avi" = [] := by
  unfold video_files
  cases hmp : globExt d.files "mp4" with
  | nil => simp [hmp]
  | cons x xs => simp [hmp]

/-- image_files is empty exactly when both globs are. -/
theorem image_files_eq_nil_iff (d : Subdir) :
    image_files d = [] ↔
      globExt d.files "jpg" = [] ∧ globExt d.files "png" = [] := by
  unfold image_files
  cases hjp : globExt d.files "jpg" with
  | nil => simp [hjp]
  | cons x xs => simp [hjp]

/-- process_video fails exactly when the latest folder has no video file. -/
theorem process_video_none_iff_aux (root : OutputRoot) (results : List YoloResult)
    (d : Subdir) (hm : maxByMtime root = some d) :
    process_video root results = none ↔ video_files d = [] := by
  simp only [process_video, hm]
  cases hv : video_files d <;> simp

/-- process_image fails exactly when the latest folder has no image file. -/
theorem process_image_none_iff_aux (root : OutputRoot) (results : List YoloResult)
    (d : Subdir) (hm : maxByMtime root = some d) :
    process_image root results = (none, none) ↔ image_files d = [] := by
  simp only [process_image, hm]
  cases hi : image_files d <;> simp

/-- process_video returns none exactly on the not-found condition. -/
theorem process_video_none_iff (root : OutputRoot) (results : List YoloResult) :
    process_video root results = none ↔ noRecognizedOutput root "mp4" "avi" := by
  cases root with
  | nil => simp [process_video, maxByMtime, noRecognizedOutput]
  | cons a l =>
    obtain ⟨d, hm⟩ : ∃ d, maxByMtime (a :: l) = some d := ⟨_, rfl⟩
    rw [process_video_none_iff_aux _ results d hm, video_files_eq_nil_iff]
    simp [noRecognizedOutput, hm]

/-- process_image returns the pair none, none exactly on the not-found
condition. -/
theorem process_image_none_iff (root : OutputRoot) (results : List YoloResult) :
    process_image root results = (none, none) ↔ noRecognizedOutput root "jpg" "png" := by
  cases root with
  | nil => simp [process_image, maxByMtime, noRecognizedOutput]
  | cons a l =>
    obtain ⟨d, hm⟩ : ∃ d, maxByMtime (a :: l) = some d := ⟨_, rfl⟩
    rw [process_image_none_iff_aux _ results d hm, image_files_eq_nil_iff]
    simp [noRecognizedOutput, hm]

/-- No element the video page renders is a category verdict. -/
theorem renderVideoPage_no_verdict (pd : Option VideoResult) (e : PageElement)
    (he : e ∈ renderVideoPage pd) : e.isVerdict = false := by
  cases e <;> try rfl
  rename_i v
  exfalso
  cases pd with
  | none => simp [renderVideoPage] at he
  | some r =>
    by_cases hi : r.images.isEmpty <;> simp [renderVideoPage, hi] at he

/-! ## Claims -/

/-- Claim C1: the spec requires the image page to declare each category
missing exactly when its label is absent, with the all-present success
banner when both labels are present.  The code cannot exhibit this: at a
concrete input on which processing succeeds and both labels were detected,
the verdict block raises KeyError on the lookup of the key Hardhat, which
is absent from detection_info, instead of showing the success banner. -/
theorem c1_verdict_rule_violated_by_code :
    process_image [⟨"runs/detect/predict", 7, ["out.jpg"]⟩]
        [⟨some ⟨some [0, 1]⟩, fun n => if n == 0 then "mask" else "helmet"⟩] =
      (some "out.jpg", some [("mask", true), ("helmet", true)]) ∧
    renderImageVerdict [("mask", true), ("helmet", true)] =
      ImageVerdict.keyError "Hardhat" :=
  ⟨rfl, by decide⟩

/-- Claim C2: for every image-mode request whose processing succeeds, the
lookup of the key Hardhat, absent from detection_info (whose keys are mask
and helmet), raises KeyError: the verdict block always ends in the KeyError
outcome for the key Hardhat, never silently treating the category as
present. -/
theorem c2_hardhat_lookup_raises_keyerror (results : List YoloResult) :
    renderImageVerdict (buildDetectionInfo results) =
      ImageVerdict.keyError "Hardhat" := by
  rcases buildDetectionInfo_shape results with h | h | h | h <;> rw [h] <;> decide

/-- Claim C3: for every state of the output root, the locator returns the
not-found result (none for video, the pair none, none for image) exactly
when the root has no subdirectory or the most recently modified one holds
no file of a recognized extension; being a total function it raises no
other fault. -/
theorem c3_not_found_exactly (root : OutputRoot) (results : List YoloResult) :
    (process_video root results = none ↔ noRecognizedOutput root "mp4" "avi") ∧
    (process_image root results = (none, none) ↔ noRecognizedOutput root "jpg" "png") :=
  ⟨process_video_none_iff root results, process_image_none_iff root results⟩

/-- Witness for claim C3 at the empty output root. -/
theorem c3_witness :
    (process_video [] [] = none ↔ noRecognizedOutput [] "mp4" "avi") ∧
    (process_image [] [] = (none, none) ↔ noRecognizedOutput [] "jpg" "png") :=
  c3_not_found_exactly [] []

/-- Claim C4: a successful video run returns at most 3 sample frames,
sorted by filename, exactly min of 3 and the number of matching files in
the selected directory; and an empty sample list makes the page render the
no-processed-images warning, not an error. -/
theorem c4_sample_frames (root : OutputRoot) (results : List YoloResult)
    (r : VideoResult) (h : process_video root results = some r) :
    r.images.length ≤ 3 ∧
    List.Sorted strle r.images ∧
    (∀ d, maxByMtime root = some d →
      r.images.length = min (image_files d).length 3) ∧
    (r.images = [] → renderVideoPage (some r) =
      [PageElement.successMsg, PageElement.downloadButton r.video,
        PageElement.warningNoImages, PageElement.recommendations]) := by
  obtain ⟨d, hm, hv, hi⟩ := process_video_eq_some root results r h
  refine ⟨?_, ?_, ?_, ?_⟩
  · rw [hi, List.length_take]
    exact min_le_left _ _
  · rw [hi]
    exact List.Pairwise.sublist (List.take_sublist 3 _)
      (sorted_insertionSort_strle (image_files d))
  · intro d2 hm2
    rw [hm] at hm2
    injection hm2 with e
    subst e
    rw [hi, List.length_take, length_insertionSort_strle]
    exact min_comm 3 _
  · intro he
    simp [renderVideoPage, he]

/-- Witness for claim C4 at a directory holding only a video file. -/
theorem c4_witness :
    ([] : List String).length ≤ 3 ∧
    List.Sorted strle ([] : List String) ∧
    ([] : List String).length = min (image_files ⟨"p4", 0, ["c.mp4"]⟩).length 3 ∧
    renderVideoPage (some ⟨"c.mp4", []⟩) =
      [PageElement.successMsg, PageElement.downloadButton "c.mp4",
        PageElement.warningNoImages, PageElement.recommendations] := by
  obtain ⟨h1, h2, h3, h4⟩ :=
    c4_sample_frames [⟨"p4", 0, ["c.mp4"]⟩] [] ⟨"c.mp4", []⟩ (by decide)
  exact ⟨h1, h2, h3 ⟨"p4", 0, ["c.mp4"]⟩ rfl, h4 rfl⟩

/-- Claim C5: the output locator is idempotent on a fixed, unmodified
output root: it leaves the root unchanged, and a second run on the state
the first run returns yields the same selected files, in both modes. -/
theorem c5_locator_idempotent (root : OutputRoot) (results : List YoloResult) :
    (runLocateVideo (runLocateVideo root results).1 results).2 =
      (runLocateVideo root results).2 ∧
    (runLocateImage (runLocateImage root results).1 results).2 =
      (runLocateImage root results).2 :=
  ⟨rfl, rfl⟩

/-- Claim C6, counterexample: with the newest directory listing b.mp4
before a.mp4, the locator returns b.mp4 although the lexicographically or
path-sorted first mp4 is a.mp4; so the claim as stated is false. -/
theorem c6_counterexample :
    process_video [⟨"runs/detect/predict", 0, ["b.mp4", "a.mp4"]⟩] [] =
      some { video := "b.mp4", images := [] } ∧
    List.insertionSort strle ["b.mp4", "a.mp4"] = ["a.mp4", "b.mp4"] :=
  ⟨by decide, by decide⟩

/-- Claim C6 as amended: when the newest output directory holds several
files of the preferred video extension, the locator selects the first one
in directory-listing order, the order in which glob enumerates the files,
which need not be the lexicographically least. -/
theorem c6_amended_head_of_listing (root : OutputRoot) (results : List YoloResult)
    (d : Subdir) (hd : maxByMtime root = some d) (r : VideoResult)
    (hr : process_video root results = some r) :
    (video_files d).head? = some r.video := by
  obtain ⟨d2, hd2, hh, _⟩ := process_video_eq_some root results r hr
  rw [hd] at hd2
  injection hd2 with e
  subst e
  exact hh

/-- Witness for the amended claim C6. -/
theorem c6_witness :
    (video_files ⟨"runs/detect/predict", 0, ["b.mp4", "a.mp4"]⟩).head? =
      some "b.mp4" :=
  c6_amended_head_of_listing [⟨"runs/detect/predict", 0, ["b.mp4", "a.mp4"]⟩] []
    ⟨"runs/detect/predict", 0, ["b.mp4", "a.mp4"]⟩ rfl
    ⟨"b.mp4", []⟩ (by decide)

/-- Claim C7: within the newest output directory the locator prefers media
by a fixed extension order: the selected video is an mp4 whenever one is
there, an avi only when no mp4 is; the selected image is a jpg whenever one
is there, a png only when no jpg is. -/
theorem c7_extension_preference (root : OutputRoot) (results : List YoloResult)
    (d : Subdir) (hd : maxByMtime root = some d) :
    (∀ r : VideoResult, process_video root results = some r →
      r.video ∈ globExt d.files "mp4" ∨
        (globExt d.files "mp4" = [] ∧ r.video ∈ globExt d.files "avi")) ∧
    (∀ (p : String) (di : Option DetInfo), process_image root results = (some p, di) →
      p ∈ globExt d.files "jpg" ∨
        (globExt d.files "jpg" = [] ∧ p ∈ globExt d.files "png")) := by
  constructor
  · intro r hr
    obtain ⟨d2, hd2, hhv, _⟩ := process_video_eq_some root results r hr
    rw [hd] at hd2
    injection hd2 with e2
    subst e2
    have hv : r.video ∈ video_files d := List.mem_of_mem_head? (Option.mem_def.mpr hhv)
    unfold video_files at hv
    cases hmp : globExt d.files "mp4" with
    | nil =>
      rw [hmp] at hv
      simp at hv
      exact Or.inr ⟨rfl, hv⟩
    | cons x xs =>
      rw [hmp] at hv
      simp at hv
      exact Or.inl (List.mem_cons.mpr hv)
  · intro p di hp
    obtain ⟨d3, hd3, hhi, _⟩ := process_image_eq_some root results p di hp
    rw [hd] at hd3
    injection hd3 with e3
    subst e3
    have hp2 : p ∈ image_files d := List.mem_of_mem_head? (Option.mem_def.mpr hhi)
    unfold image_files at hp2
    cases hjp : globExt d.files "jpg" with
    | nil =>
      rw [hjp] at hp2
      simp at hp2
      exact Or.inr ⟨rfl, hp2⟩
    | cons x xs =>
      rw [hjp] at hp2
      simp at hp2
      exact Or.inl (List.mem_cons.mpr hp2)

/-- Witness for claim C7 exercising the fallback branch of each mode on a
single-media-kind directory: a newest directory holding only b.avi, where
the video mode falls back to avi, and a newest directory holding only
i.png, where the image mode falls back to png. -/
theorem c7_witness :
    ("b.avi" ∈ globExt ["b.avi"] "mp4" ∨
      (globExt ["b.avi"] "mp4" = [] ∧ "b.avi" ∈ globExt ["b.avi"] "avi")) ∧
    ("i.png" ∈ globExt ["i.png"] "jpg" ∨
      (globExt ["i.png"] "jpg" = [] ∧ "i.png" ∈ globExt ["i.png"] "png")) :=
  ⟨(c7_extension_preference [⟨"p7a", 0, ["b.avi"]⟩] []
      ⟨"p7a", 0, ["b.avi"]⟩ rfl).1 ⟨"b.avi", []⟩ (by decide),
    (c7_extension_preference [⟨"p7b", 0, ["i.png"]⟩] []
      ⟨"p7b", 0, ["i.png"]⟩ rfl).2 "i.png"
      (some [("mask", false), ("helmet", false)]) (by decide)⟩

/-- Claim C8: video mode never computes or displays a category verdict:
process_video is independent of the detection results, returning only the
processed-video path and sample-frame paths, and no element the video page
renders is a verdict. -/
theorem c8_video_mode_no_verdict (root : OutputRoot) (res res2 : List YoloResult) :
    process_video root res = process_video root res2 ∧
    ∀ e ∈ renderVideoPage (process_video root res), e.isVerdict = false :=
  ⟨rfl, fun e he => renderVideoPage_no_verdict _ e he⟩

/-- Witness for claim C8 on a concrete rendered page. -/
theorem c8_witness :
    PageElement.isVerdict PageElement.successMsg = false :=
  (c8_video_mode_no_verdict [⟨"p8", 0, ["v.mp4"]⟩] [] []).2
    PageElement.successMsg (by decide)

/-- Claim C9: only the first result of the detector output is inspected
when building detection_info: two result lists with the same head yield the
same mask and helmet flags, whatever the later results hold. -/
theorem c9_only_first_result (res res2 : List YoloResult)
    (h : res.head? = res2.head?) :
    buildDetectionInfo res = buildDetectionInfo res2 := by
  cases res with
  | nil =>
    cases res2 with
    | nil => rfl
    | cons b m => simp at h
  | cons a l =>
    cases res2 with
    | nil => simp at h
    | cons b m =>
      simp at h
      subst h
      rfl

/-- Witness for claim C9: appending a helmet detection in a second result
does not change the flags. -/
theorem c9_witness :
    buildDetectionInfo [⟨some ⟨some [0]⟩, fun _ => "mask"⟩] =
      buildDetectionInfo [⟨some ⟨some [0]⟩, fun _ => "mask"⟩,
        ⟨some ⟨some [1]⟩, fun _ => "helmet"⟩] :=
  c9_only_first_result [⟨some ⟨some [0]⟩, fun _ => "mask"⟩]
    [⟨some ⟨some [0]⟩, fun _ => "mask"⟩, ⟨some ⟨some [1]⟩, fun _ => "helmet"⟩] rfl

/-- Claim C10: process_image returns either the pair none, none or a pair
of a path and a mapping whose keys are exactly mask and helmet: the two
components are some together, and any returned mapping has exactly those
two keys in that order. -/
theorem c10_return_invariant (root : OutputRoot) (results : List YoloResult) :
    ((process_image root results).1 = none ↔ (process_image root results).2 = none) ∧
    ∀ di, (process_image root results).2 = some di →
      di.map Prod.fst = ["mask", "helmet"] := by
  unfold process_image
  split
  · refine ⟨by simp, ?_⟩
    intro di hdi
    simp at hdi
  · rename_i d hm
    split
    · refine ⟨by simp, ?_⟩
      intro di hdi
      simp at hdi
    · rename_i f fs hi
      refine ⟨by simp, ?_⟩
      intro di hdi
      simp at hdi
      exact hdi ▸ buildDetectionInfo_keys results

/-- Witness for claim C10 at a directory holding one jpg and an empty
detection result. -/
theorem c10_witness :
    [("mask", false), ("helmet", false)].map Prod.fst = ["mask", "helmet"] :=
  (c10_return_invariant [⟨"p10", 0, ["o.jpg"]⟩] []).2
    [("mask", false), ("helmet", false)] (by decide)

end PPEApp
